import Mathlib

/-!
Verification of the foodgram-st backend view layer (`backend/api/views.py`).

The development shallowly embeds the computational content of the view
functions: the shopping-cart aggregation query and its three renderers
(`RecipeViewSet.export_shopping_cart` and the `_generate_*_response`
helpers), the share-link base-62 codec (`Base62Field`, modelled from the
spec because `api/fields.py` is not part of the sources), the follow
deletion branch of `UserViewSet.manage_follow`, and the name filter of
`IngredientViewSet.get_queryset`.  Database rows are embedded as lists of
structures; HTTP responses as inductive results carrying the produced
bytes/status.
-/

namespace FoodgramSpec

/-! ### Code-point string order

Python and the SQL backends compare strings by code point.  `charLtB`
compares two characters by their numeric code point, `charListLt` is the
induced lexicographic order on lists of characters. -/

/-- Code-point comparison of two characters, as used by Python/SQL string
comparison. -/
def charLtB (a b : Char) : Bool := decide (a.toNat < b.toNat)

/-- Lexicographic code-point order on character lists (the order of Python
and SQL string comparison). -/
def charListLt : List Char → List Char → Bool
  | [], [] => false
  | [], _ :: _ => true
  | _ :: _, [] => false
  | a :: as, b :: bs => charLtB a b || (decide (a = b) && charListLt as bs)

/-! ### Ordering on grouping keys

The shopping-cart query groups by the pair (ingredient name, measurement
unit).  `keyLt`/`keyLe` order those grouping keys lexicographically:
first by name, ties by unit. -/

/-- Strict order on grouping keys: by name, ties broken by unit. -/
def keyLt (a b : String × String) : Bool :=
  charListLt a.1.data b.1.data ||
    (decide (a.1 = b.1) && charListLt a.2.data b.2.data)

/-- Reflexive closure of `keyLt`. -/
def keyLe (a b : String × String) : Bool := keyLt a b || decide (a = b)

/-- Insert a key into a list, keeping `keyLe`-sorted lists sorted. -/
def insertKey (x : String × String) : List (String × String) → List (String × String)
  | [] => [x]
  | y :: ys => if keyLe x y then x :: y :: ys else y :: insertKey x ys

/-- Insertion sort of grouping keys by `keyLe`; embeds the ordering the
SQL `GROUP BY name, unit ... ORDER BY name` produces (rows sorted on the
grouping key). -/
def sortKeys : List (String × String) → List (String × String)
  | [] => []
  | x :: xs => insertKey x (sortKeys xs)

/-! ### Data model

Rows of the tables the cart export reads (`recipes.models`): a
`RecipeIngredient` row joins a recipe to an ingredient (denormalised here
to its name and measurement unit, the two columns the query selects) with
an amount; a `CartEntry` is a `ShoppingCart` row linking a user to a
recipe. -/

/-- A `RecipeIngredient` row, with the ingredient columns the export query
selects inlined. -/
structure RecipeIngredient where
  recipe : Nat
  name : String
  measurement_unit : String
  amount : Nat
deriving DecidableEq, Repr

/-- A `ShoppingCart` row: user marks recipe for the shopping list. -/
structure CartEntry where
  user : Nat
  recipe : Nat
deriving DecidableEq, Repr

/-- One aggregated output line, mirroring the dict built in
`export_shopping_cart` (keys `name`, `amount`, `measurement_unit`). -/
structure AggregatedLine where
  name : String
  amount : Nat
  measurement_unit : String
deriving DecidableEq, Repr

/-! ### The aggregation query

`export_shopping_cart` runs
`RecipeIngredient.objects.filter(recipe__shopping_carts__user=user)
.values(name, unit).annotate(total_amount=Sum('amount'))
.order_by('ingredient__name')`.
The embedding: keep the lines whose recipe appears in the user's cart
(cart rows are unique per (user, recipe)), group them by (name, unit)
summing `amount`, and emit the groups ordered on the grouping key, i.e.
sorted by name with ties in the grouping-key (unit) order. -/

/-- Recipes in the user's cart. -/
def cartRecipes (carts : List CartEntry) (u : Nat) : List Nat :=
  (carts.filter fun c => decide (c.user = u)).map CartEntry.recipe

/-- The `RecipeIngredient` rows selected by the filter
`recipe__shopping_carts__user=user`. -/
def cartLines (lines : List RecipeIngredient) (carts : List CartEntry) (u : Nat) :
    List RecipeIngredient :=
  lines.filter fun l => decide (l.recipe ∈ cartRecipes carts u)

/-- The distinct grouping keys (name, unit) occurring among rows. -/
def shoppingKeys (ls : List RecipeIngredient) : List (String × String) :=
  ((ls.map fun l => (l.name, l.measurement_unit)).dedup)

/-- `Sum('amount')` of the rows in one (name, unit) group. -/
def sumFor (ls : List RecipeIngredient) (k : String × String) : Nat :=
  (((ls.filter fun l => decide (l.name = k.1 ∧ l.measurement_unit = k.2)).map
    RecipeIngredient.amount).sum)

/-- The aggregation query of `export_shopping_cart`: grouped, summed,
ordered list of aggregated lines. -/
def aggregate (lines : List RecipeIngredient) (carts : List CartEntry) (u : Nat) :
    List AggregatedLine :=
  (sortKeys (shoppingKeys (cartLines lines carts u))).map fun k =>
    { name := k.1, amount := sumFor (cartLines lines carts u) k,
      measurement_unit := k.2 }

/-! ### Renderers -/

/-- Body built by `_generate_text_response`: one `name (unit) — amount`
line per entry, joined by newlines. -/
def generate_text_content (ingredients : List AggregatedLine) : String :=
  String.intercalate ("\n") (ingredients.map fun i =>
    i.name ++ (" (") ++ i.measurement_unit ++ (") — ") ++ toString i.amount)

/-- Double every quote character; the body of the `csv` module's
escaping of a quoted field. -/
def escapeQuotes : List Char → List Char
  | [] => []
  | c :: rest =>
    if c = '"' then '"' :: '"' :: escapeQuotes rest else c :: escapeQuotes rest

/-- Undo `escapeQuotes`: collapse doubled quote characters. -/
def unescapeQuotes : List Char → List Char
  | [] => []
  | [c] => [c]
  | c :: c' :: rest =>
    if c = '"' ∧ c' = '"' then '"' :: unescapeQuotes rest
    else c :: unescapeQuotes (c' :: rest)

/-- Python `csv.writer` (default dialect, QUOTE_MINIMAL) quotes a field
iff it contains the delimiter, the quote character, or a line-terminator
character. -/
def needsQuoting (s : String) : Bool :=
  s.data.any fun c => c == ',' || c == '"' || c == '\r' || c == '\n'

/-- One field as written by `csv.writer`: quoted (with doubled inner
quotes) iff it needs quoting, verbatim otherwise. -/
def csvField (s : String) : String :=
  if needsQuoting s then ⟨'"' :: (escapeQuotes s.data ++ ['"'])⟩ else s

/-- One row as written by `csv.writer.writerow`: comma-separated fields
terminated by CRLF. -/
def csvRow (fields : List String) : String :=
  String.intercalate (",") (fields.map csvField) ++ ("\r\n")

/-- The header row written first by `_generate_csv_response`. -/
def csvHeaderFields : List String :=
  [("Ингредиент"), ("Количество"), ("Единица измерения")]

/-- Body built by `_generate_csv_response`: header row, then one row per
entry with fields name, amount, unit. -/
def generate_csv_content (ingredients : List AggregatedLine) : String :=
  csvRow csvHeaderFields ++
    String.join (ingredients.map fun i =>
      csvRow [i.name, toString i.amount, i.measurement_unit])

/-- Cell texts written by `_generate_pdf_response` into the FPDF
document: the centered title, then one `name (unit) — amount` line per
entry.  The byte-level PDF serialisation by the fpdf library is outside
the embedding. -/
def generate_pdf_cells (ingredients : List AggregatedLine) : List String :=
  ("Список покупок") :: ingredients.map fun i =>
    i.name ++ (" (") ++ i.measurement_unit ++ (") — ") ++ toString i.amount

/-! ### The export endpoint -/

/-- The response of `export_shopping_cart`: one of the three file
responses (carrying the content the corresponding helper builds) or the
400 "Неподдерживаемый формат файла" response. -/
inductive ExportResult where
  | txtFile (body : String)
  | csvFile (body : String)
  | pdfFile (cells : List String)
  | badRequest (detail : String)
deriving DecidableEq, Repr

/-- HTTP status code of an `ExportResult`. -/
def statusCode : ExportResult → Nat
  | .txtFile _ => 200
  | .csvFile _ => 200
  | .pdfFile _ => 200
  | .badRequest _ => 400

/-- Python `str.lower()`, restricted to the ASCII lowering relevant to
the format identifiers. -/
def strLower (s : String) : String := ⟨s.data.map Char.toLower⟩

/-- `export_shopping_cart`: aggregate the user's cart, read the `format`
query parameter (defaulting to `txt` when absent), lowercase it, and
dispatch on `txt`/`csv`/`pdf`, answering 400 otherwise. -/
def export_shopping_cart (lines : List RecipeIngredient) (carts : List CartEntry)
    (u : Nat) (formatParam : Option String) : ExportResult :=
  let ingredients_list := aggregate lines carts u
  let file_format := strLower (formatParam.getD ("txt"))
  if file_format = ("txt") then ExportResult.txtFile (generate_text_content ingredients_list)
  else if file_format = ("csv") then ExportResult.csvFile (generate_csv_content ingredients_list)
  else if file_format = ("pdf") then ExportResult.pdfFile (generate_pdf_cells ingredients_list)
  else ExportResult.badRequest ("Неподдерживаемый формат файла")

/-! ### The base-62 share-link codec

Modelled from the spec: `Base62Field.to_base62` and its inverse live in
`api/fields.py`, which is not among the sources; only the caller
`generate_share_link` is.  The spec prescribes standard positional
base-62 over the alphabet digits, lowercase, uppercase, with `encode(0)`
the first alphabet symbol. -/

/-- Modelled from the spec: the 62-character alphabet (digits, lowercase,
uppercase) of `Base62Field`. -/
def base62_alphabet : List Char :=
  ("0123456789abcdefghijklmnopqrstuvwxyzABCDEFGHIJKLMNOPQRSTUVWXYZ").toList

/-- Character for one base-62 digit value. -/
def base62_char (d : Nat) : Char := base62_alphabet.getD d ' '

/-- Modelled from the spec: `Base62Field.to_base62` — standard positional
base-62 encoding of a non-negative integer, `0` encoded as the first
alphabet symbol. -/
def to_base62 (n : Nat) : String :=
  if n = 0 then ("0") else ((Nat.digits 62 n).reverse.map base62_char).asString

/-- Digit value of one character, `none` outside the alphabet. -/
def base62_index (c : Char) : Option Nat := base62_alphabet.indexOf? c

/-- Modelled from the spec: the decoder used by the `/s/<token>` route —
positional base-62 decoding, failing (InvalidToken) on a character
outside the alphabet. -/
def from_base62 (s : String) : Option Nat :=
  s.data.foldlM (fun acc c => (base62_index c).map fun d => acc * 62 + d) 0

/-! ### Follow deletion

The DELETE branch of `UserViewSet.manage_follow`: 404 when the target
user does not exist, 400 when no follow row links the requester to the
target, otherwise delete that row and answer 204.  The `Follow` table is
embedded as a list of (follower, followed) pairs; `filter(...).first()
.delete()` removes the first matching row. -/

/-- DELETE branch of `manage_follow`; returns the HTTP status and the new
follow table. -/
def manage_follow_delete (users : List Nat) (follows : List (Nat × Nat))
    (u t : Nat) : Nat × List (Nat × Nat) :=
  if t ∈ users then
    if (u, t) ∈ follows then (204, follows.erase (u, t)) else (400, follows)
  else (404, follows)

/-! ### Ingredient name filter -/

/-- Django `istartswith`: case-insensitive prefix test. -/
def istartswith (s p : String) : Bool :=
  (strLower p).data.isPrefixOf (strLower s).data

/-- `IngredientViewSet.get_queryset`: keep only the ingredients whose
name starts (case-insensitively) with the `name` query parameter; a
missing or empty parameter (falsy in Python) leaves the set unfiltered. -/
def ingredient_get_queryset (ingredients : List String) (nameParam : Option String) :
    List String :=
  match nameParam with
  | none => ingredients
  | some n =>
    if n.isEmpty then ingredients
    else ingredients.filter fun i => istartswith i n

/-! ### Test vectors from the spec -/

/-- Two recipes each requiring Salt (g), amounts 2 and 3 (the spec's test
vector for duplicate accumulation). -/
def saltLines : List RecipeIngredient :=
  [⟨1, ("Salt"), ("g"), 2⟩, ⟨2, ("Salt"), ("g"), 3⟩]

/-- User 7 has both salt recipes in the cart. -/
def saltCarts : List CartEntry := [⟨7, 1⟩, ⟨7, 2⟩]

/-! ## Order lemmas -/

theorem charLtB_trans {a b c : Char} (h1 : charLtB a b = true) (h2 : charLtB b c = true) :
    charLtB a c = true := by
  simp only [charLtB, decide_eq_true_eq] at h1 h2 ⊢
  omega

theorem char_eq_of_not_ltB {a b : Char} (h1 : charLtB a b = false) (h2 : charLtB b a = false) :
    a = b := by
  simp only [charLtB, decide_eq_false_iff_not, Nat.not_lt] at h1 h2
  exact Char.ext (UInt32.ext (Nat.le_antisymm h2 h1))

theorem charListLt_trans : ∀ (l₁ l₂ l₃ : List Char), charListLt l₁ l₂ = true →
    charListLt l₂ l₃ = true → charListLt l₁ l₃ = true := by
  intro l₁
  induction l₁ with
  | nil =>
    intro l₂ l₃ h1 h2
    cases l₂ with
    | nil => simp [charListLt] at h1
    | cons b bs =>
      cases l₃ with
      | nil => simp [charListLt] at h2
      | cons c cs => simp [charListLt]
  | cons a as ih =>
    intro l₂ l₃ h1 h2
    cases l₂ with
    | nil => simp [charListLt] at h1
    | cons b bs =>
      cases l₃ with
      | nil => simp [charListLt] at h2
      | cons c cs =>
        simp only [charListLt, Bool.or_eq_true, Bool.and_eq_true, decide_eq_true_eq]
          at h1 h2 ⊢
        rcases h1 with h1 | ⟨rfl, h1⟩
        · rcases h2 with h2 | ⟨rfl, h2⟩
          · exact Or.inl (charLtB_trans h1 h2)
          · exact Or.inl h1
        · rcases h2 with h2 | ⟨rfl, h2⟩
          · exact Or.inl h2
          · exact Or.inr ⟨rfl, ih _ _ h1 h2⟩

theorem charLtB_irrefl (a : Char) : charLtB a a = false := by
  simp [charLtB]

theorem charListLt_connex : ∀ (l₁ l₂ : List Char), charListLt l₁ l₂ = false →
    charListLt l₂ l₁ = false → l₁ = l₂ := by
  intro l₁
  induction l₁ with
  | nil =>
    intro l₂ h1 _
    cases l₂ with
    | nil => rfl
    | cons b bs => simp [charListLt] at h1
  | cons a as ih =>
    intro l₂ h1 h2
    cases l₂ with
    | nil => simp [charListLt] at h2
    | cons b bs =>
      simp only [charListLt, Bool.or_eq_false_iff] at h1 h2
      have hab : a = b := char_eq_of_not_ltB h1.1 h2.1
      subst hab
      have h1' := h1.2
      have h2' := h2.2
      simp only [decide_eq_true_eq, Bool.and_eq_false_iff, decide_eq_false_iff_not] at h1' h2'
      rcases h1' with h1' | h1'
      · exact absurd trivial h1'
      · rcases h2' with h2' | h2'
        · exact absurd trivial h2'
        · exact congrArg (a :: ·) (ih _ h1' h2')

theorem string_eq_of_data_eq {s t : String} (h : s.data = t.data) : s = t := by
  cases s
  cases t
  exact congrArg String.mk h

theorem keyLt_trans {a b c : String × String} (h1 : keyLt a b = true)
    (h2 : keyLt b c = true) : keyLt a c = true := by
  simp only [keyLt, Bool.or_eq_true, Bool.and_eq_true, decide_eq_true_eq] at h1 h2 ⊢
  rcases h1 with h1 | ⟨e1, h1⟩
  · rcases h2 with h2 | ⟨e2, h2⟩
    · exact Or.inl (charListLt_trans _ _ _ h1 h2)
    · rw [← e2]
      exact Or.inl h1
  · rcases h2 with h2 | ⟨e2, h2⟩
    · rw [e1]
      exact Or.inl h2
    · exact Or.inr ⟨e1.trans e2, charListLt_trans _ _ _ h1 h2⟩

theorem keyLe_trans {a b c : String × String} (h1 : keyLe a b = true)
    (h2 : keyLe b c = true) : keyLe a c = true := by
  simp only [keyLe, Bool.or_eq_true, decide_eq_true_eq] at h1 h2 ⊢
  rcases h1 with h1 | rfl
  · rcases h2 with h2 | rfl
    · exact Or.inl (keyLt_trans h1 h2)
    · exact Or.inl h1
  · exact h2

theorem keyLe_total (a b : String × String) : keyLe a b = true ∨ keyLe b a = true := by
  by_cases hab : a = b
  · subst hab
    left
    simp [keyLe]
  cases h1 : charListLt a.1.data b.1.data with
  | true =>
    left
    simp [keyLe, keyLt, h1]
  | false =>
    cases h2 : charListLt b.1.data a.1.data with
    | true =>
      right
      simp [keyLe, keyLt, h2]
    | false =>
      have e1 : a.1 = b.1 := string_eq_of_data_eq (charListLt_connex _ _ h1 h2)
      cases h3 : charListLt a.2.data b.2.data with
      | true =>
        left
        simp [keyLe, keyLt, h1, e1, h3]
      | false =>
        cases h4 : charListLt b.2.data a.2.data with
        | true =>
          right
          simp [keyLe, keyLt, h2, e1, h4]
        | false =>
          exact absurd (Prod.ext e1 (string_eq_of_data_eq (charListLt_connex _ _ h3 h4))) hab

/-! ## Sorting lemmas -/

theorem insertKey_perm (x : String × String) : ∀ (l : List (String × String)),
    (insertKey x l).Perm (x :: l)
  | [] => List.Perm.refl _
  | y :: ys => by
    rw [insertKey]
    split
    · exact List.Perm.refl _
    · exact (List.Perm.cons y (insertKey_perm x ys)).trans (List.Perm.swap x y ys)

theorem sortKeys_perm : ∀ (l : List (String × String)), (sortKeys l).Perm l
  | [] => List.Perm.refl _
  | x :: xs => (insertKey_perm x (sortKeys xs)).trans (List.Perm.cons x (sortKeys_perm xs))

theorem pairwise_insertKey (x : String × String) : ∀ (l : List (String × String)),
    l.Pairwise (fun a b => keyLe a b = true) →
    (insertKey x l).Pairwise (fun a b => keyLe a b = true)
  | [], _ => by simp [insertKey]
  | y :: ys, h => by
    rw [insertKey]
    rcases List.pairwise_cons.mp h with ⟨hy, hys⟩
    split
    next hxy =>
      refine List.pairwise_cons.mpr ⟨?_, h⟩
      intro z hz
      rcases List.mem_cons.mp hz with rfl | hz
      · exact hxy
      · exact keyLe_trans hxy (hy z hz)
    next hxy =>
      have hyx : keyLe y x = true := by
        rcases keyLe_total x y with ht | ht
        · exact absurd ht hxy
        · exact ht
      refine List.pairwise_cons.mpr ⟨?_, pairwise_insertKey x ys hys⟩
      intro z hz
      rcases List.mem_cons.mp ((insertKey_perm x ys).mem_iff.mp hz) with rfl | hz
      · exact hyx
      · exact hy z hz

theorem sortKeys_pairwise : ∀ (l : List (String × String)),
    (sortKeys l).Pairwise (fun a b => keyLe a b = true)
  | [] => List.Pairwise.nil
  | x :: xs => pairwise_insertKey x (sortKeys xs) (sortKeys_pairwise xs)

/-! ## Aggregation lemmas -/

theorem keyLt_iff {a b : String × String} : keyLt a b = true ↔
    (charListLt a.1.data b.1.data = true ∨
      (a.1 = b.1 ∧ charListLt a.2.data b.2.data = true)) := by
  simp [keyLt, Bool.or_eq_true, Bool.and_eq_true, decide_eq_true_eq]

theorem aggregate_pairwise (lines : List RecipeIngredient) (carts : List CartEntry)
    (u : Nat) :
    (aggregate lines carts u).Pairwise (fun x y =>
      charListLt x.name.data y.name.data = true ∨
        (x.name = y.name ∧
          charListLt x.measurement_unit.data y.measurement_unit.data = true)) := by
  unfold aggregate
  rw [List.pairwise_map]
  have hnodup : (sortKeys (shoppingKeys (cartLines lines carts u))).Nodup :=
    (sortKeys_perm _).nodup_iff.mpr (List.nodup_dedup _)
  have hpw := sortKeys_pairwise (shoppingKeys (cartLines lines carts u))
  refine (hpw.and hnodup).imp ?_
  rintro a b ⟨hle, hne⟩
  have hlt : keyLt a b = true := by
    rcases (Bool.or_eq_true _ _).mp hle with ht | ht
    · exact ht
    · exact absurd (of_decide_eq_true ht) hne
  exact keyLt_iff.mp hlt

theorem aggregate_amount (lines : List RecipeIngredient) (carts : List CartEntry)
    (u : Nat) :
    ∀ e ∈ aggregate lines carts u,
      e.amount = sumFor (cartLines lines carts u) (e.name, e.measurement_unit) := by
  intro e he
  unfold aggregate at he
  rcases List.mem_map.mp he with ⟨k, _, rfl⟩
  rfl

theorem aggregate_keys (lines : List RecipeIngredient) (carts : List CartEntry)
    (u : Nat) (nm un : String) :
    (∃ e ∈ aggregate lines carts u, e.name = nm ∧ e.measurement_unit = un) ↔
      (∃ l ∈ cartLines lines carts u, l.name = nm ∧ l.measurement_unit = un) := by
  unfold aggregate
  constructor
  · rintro ⟨e, he, h1, h2⟩
    rcases List.mem_map.mp he with ⟨k, hk, rfl⟩
    have hk' : k ∈ shoppingKeys (cartLines lines carts u) :=
      (sortKeys_perm _).mem_iff.mp hk
    rcases List.mem_map.mp (List.mem_dedup.mp hk') with ⟨l, hl, hlk⟩
    subst hlk
    exact ⟨l, hl, h1, h2⟩
  · rintro ⟨l, hl, h1, h2⟩
    refine ⟨⟨nm, sumFor (cartLines lines carts u) (nm, un), un⟩, ?_, rfl, rfl⟩
    apply List.mem_map.mpr
    refine ⟨(nm, un), ?_, rfl⟩
    apply (sortKeys_perm _).mem_iff.mpr
    apply List.mem_dedup.mpr
    exact List.mem_map.mpr ⟨l, hl, by rw [h1, h2]⟩

/-- C2: for every set of cart entries and recipe ingredient lines, the
aggregation groups the selected lines by the (ingredient name, unit)
pair, sums the quantities within each group, and emits the groups sorted
ascending by ingredient name with ties between equal names broken by the
unit string. -/
theorem c2_aggregate_groups_sums_sorted (lines : List RecipeIngredient)
    (carts : List CartEntry) (u : Nat) :
    (aggregate lines carts u).Pairwise (fun x y =>
      charListLt x.name.data y.name.data = true ∨
        (x.name = y.name ∧
          charListLt x.measurement_unit.data y.measurement_unit.data = true)) ∧
    (∀ nm un : String,
      (∃ e ∈ aggregate lines carts u, e.name = nm ∧ e.measurement_unit = un) ↔
        (∃ l ∈ cartLines lines carts u, l.name = nm ∧ l.measurement_unit = un)) ∧
    (∀ e ∈ aggregate lines carts u,
      e.amount = sumFor (cartLines lines carts u) (e.name, e.measurement_unit)) :=
  ⟨aggregate_pairwise lines carts u,
    fun nm un => aggregate_keys lines carts u nm un,
    aggregate_amount lines carts u⟩

theorem c2_witness :
    (⟨("Salt"), 5, ("g")⟩ : AggregatedLine).amount
      = sumFor (cartLines saltLines saltCarts 7) (("Salt"), ("g")) :=
  (c2_aggregate_groups_sums_sorted saltLines saltCarts 7).2.2
    ⟨("Salt"), 5, ("g")⟩ (by decide)

/-- C3: every aggregated line's total equals the sum of that
(name, unit) ingredient's quantities over the lines of the cart's
recipes — duplicates across recipes add up; in particular the spec's
Salt example: carts with amounts 2 and 3 of Salt (g) yield the single
line Salt/5/g. -/
theorem c3_amount_invariant (lines : List RecipeIngredient) (carts : List CartEntry)
    (u : Nat) :
    (∀ e ∈ aggregate lines carts u,
      e.amount = (((cartLines lines carts u).filter fun l =>
        decide (l.name = e.name ∧ l.measurement_unit = e.measurement_unit)).map
          RecipeIngredient.amount).sum) ∧
    aggregate saltLines saltCarts 7 = [⟨("Salt"), 5, ("g")⟩] := by
  constructor
  · intro e he
    exact aggregate_amount lines carts u e he
  · decide

theorem c3_witness :
    (⟨("Salt"), 5, ("g")⟩ : AggregatedLine).amount
      = (((cartLines saltLines saltCarts 7).filter fun l =>
          decide (l.name = ("Salt") ∧ l.measurement_unit = ("g"))).map
            RecipeIngredient.amount).sum :=
  (c3_amount_invariant saltLines saltCarts 7).1 ⟨("Salt"), 5, ("g")⟩ (by decide)

/-- C6: for a user with an empty cart the aggregation is the empty
sequence rather than an error, the plain-text body is empty, the csv
body is exactly the header row, and the pdf document is the bare
title. -/
theorem c6_empty_cart (lines : List RecipeIngredient) (carts : List CartEntry)
    (u : Nat) (h : ∀ c ∈ carts, c.user ≠ u) :
    aggregate lines carts u = [] ∧
    generate_text_content (aggregate lines carts u) = ("") ∧
    generate_csv_content (aggregate lines carts u)
      = ("Ингредиент,Количество,Единица измерения\r\n") ∧
    generate_pdf_cells (aggregate lines carts u) = [("Список покупок")] := by
  have hf : (carts.filter fun c => decide (c.user = u)) = [] :=
    List.filter_eq_nil_iff.mpr (fun c hc => by simpa using h c hc)
  have hcr : cartRecipes carts u = [] := by
    unfold cartRecipes
    rw [hf]
    rfl
  have hcl : cartLines lines carts u = [] := by
    unfold cartLines
    apply List.filter_eq_nil_iff.mpr
    intro l _
    simp [hcr]
  have ha : aggregate lines carts u = [] := by
    unfold aggregate
    rw [hcl]
    rfl
  refine ⟨ha, ?_, ?_, ?_⟩ <;> rw [ha] <;> decide

theorem c6_witness :
    aggregate ([] : List RecipeIngredient) [⟨1, 5⟩] 2 = [] ∧
    generate_text_content (aggregate ([] : List RecipeIngredient) [⟨1, 5⟩] 2) = ("") ∧
    generate_csv_content (aggregate ([] : List RecipeIngredient) [⟨1, 5⟩] 2)
      = ("Ингредиент,Количество,Единица измерения\r\n") ∧
    generate_pdf_cells (aggregate ([] : List RecipeIngredient) [⟨1, 5⟩] 2)
      = [("Список покупок")] :=
  c6_empty_cart [] [⟨1, 5⟩] 2 (by decide)

/-! ## Base-62 codec lemmas -/

theorem base62_index_char : ∀ d, d < 62 → base62_index (base62_char d) = some d := by
  decide

theorem base62_char_ne_zero : ∀ d, d < 62 → d ≠ 0 → base62_char d ≠ '0' := by
  decide

theorem fold_digits_eq (L : List Nat) (hL : ∀ d ∈ L, d < 62) (a : Nat) :
    List.foldlM (fun acc c => (base62_index c).map fun d => acc * 62 + d) a
      (L.reverse.map base62_char)
      = some (a * 62 ^ L.length + Nat.ofDigits 62 L) := by
  induction L generalizing a with
  | nil => simp [Nat.ofDigits]
  | cons d L ih =>
    have hd : d < 62 := hL d (List.mem_cons_self d L)
    have hL' : ∀ x ∈ L, x < 62 := fun x hx => hL x (List.mem_cons_of_mem d hx)
    rw [List.reverse_cons, List.map_append, List.foldlM_append, ih hL' a]
    simp only [List.map_cons, List.map_nil, List.foldlM, base62_index_char d hd,
      Option.map_some', Option.some_bind, Option.bind_eq_bind]
    simp only [Nat.ofDigits_cons, List.length_cons, Nat.cast_id]
    ring_nf
    rfl

/-- C1: decoding the token produced by encoding a non-negative integer
returns that integer: the base-62 encode/decode pair is a round trip. -/
theorem c1_base62_roundtrip (n : Nat) : from_base62 (to_base62 n) = some n := by
  by_cases h : n = 0
  · subst h
    decide
  · unfold to_base62 from_base62
    rw [if_neg h]
    have hdig : ∀ d ∈ Nat.digits 62 n, d < 62 := fun d hd =>
      Nat.digits_lt_base (by norm_num) hd
    have hAs : (((Nat.digits 62 n).reverse.map base62_char).asString).data
        = (Nat.digits 62 n).reverse.map base62_char := rfl
    rw [hAs]
    rw [fold_digits_eq (Nat.digits 62 n) hdig 0]
    simp [Nat.ofDigits_digits]

/-- C7: encode(0) is the single-character representation of the first
alphabet symbol, and for every n > 0 the encoded token never begins with
the zero symbol of the alphabet. -/
theorem c7_base62_canonical :
    to_base62 0 = ("0") ∧
    ∀ n : Nat, 0 < n → (to_base62 n).data.head? ≠ some '0' := by
  refine ⟨rfl, ?_⟩
  intro n hn
  have hne : n ≠ 0 := Nat.pos_iff_ne_zero.mp hn
  unfold to_base62
  rw [if_neg hne]
  have hAs : (((Nat.digits 62 n).reverse.map base62_char).asString).data
      = (Nat.digits 62 n).reverse.map base62_char := rfl
  rw [hAs, List.head?_map, List.head?_reverse]
  have hnil : Nat.digits 62 n ≠ [] := Nat.digits_ne_nil_iff_ne_zero.mpr hne
  rw [List.getLast?_eq_getLast _ hnil]
  have hlast_lt : (Nat.digits 62 n).getLast hnil < 62 :=
    Nat.digits_lt_base (by norm_num) (List.getLast_mem hnil)
  have hlast_ne : (Nat.digits 62 n).getLast hnil ≠ 0 :=
    Nat.getLast_digit_ne_zero 62 hne
  intro hc
  exact base62_char_ne_zero _ hlast_lt hlast_ne (by simpa using hc)

theorem c7_witness : (to_base62 62).data.head? ≠ some '0' :=
  c7_base62_canonical.2 62 (by decide)

/-! ## CSV renderer lemmas -/

theorem escapeQuotes_eq_nil {l : List Char} (h : escapeQuotes l = []) : l = [] := by
  cases l with
  | nil => rfl
  | cons d l =>
    rw [escapeQuotes] at h
    split at h <;> simp at h

theorem unescape_escape (l : List Char) : unescapeQuotes (escapeQuotes l) = l := by
  induction l with
  | nil => rfl
  | cons c rest ih =>
    by_cases hc : c = '"'
    · subst hc
      rw [escapeQuotes, if_pos rfl, unescapeQuotes, if_pos ⟨rfl, rfl⟩, ih]
    · rw [escapeQuotes, if_neg hc]
      cases hX : escapeQuotes rest with
      | nil =>
        rw [escapeQuotes_eq_nil hX]
        rfl
      | cons x X =>
        rw [unescapeQuotes, if_neg (fun hp => hc hp.1), ← hX, ih]

theorem csvRow_three (x y z : String) :
    csvRow [x, y, z]
      = csvField x ++ (",") ++ csvField y ++ (",") ++ csvField z ++ ("\r\n") := rfl

/-- C5: the csv renderer emits the header row
Ингредиент,Количество,Единица измерения followed by one comma-separated
row per entry in the order name, amount, unit; a field containing a
comma or a quote is emitted as a quoted field whose escaping (doubling
inner quotes) is lossless. -/
theorem c5_csv_renderer (ingredients : List AggregatedLine) (s : String) :
    generate_csv_content ingredients
      = ("Ингредиент,Количество,Единица измерения\r\n") ++
          String.join (ingredients.map fun i =>
            csvField i.name ++ (",") ++ csvField (toString i.amount) ++ (",") ++
              csvField i.measurement_unit ++ ("\r\n")) ∧
    ((',' ∈ s.data ∨ '"' ∈ s.data) →
      (csvField s).data = '"' :: (escapeQuotes s.data ++ ['"']) ∧
      unescapeQuotes (escapeQuotes s.data) = s.data) := by
  constructor
  · have hhead : csvRow csvHeaderFields
        = ("Ингредиент,Количество,Единица измерения\r\n") := by decide
    simp only [generate_csv_content, hhead, csvRow_three]
  · intro hmem
    have hq : needsQuoting s = true := by
      unfold needsQuoting
      rcases hmem with hm | hm
      · exact List.any_eq_true.mpr ⟨',', hm, by decide⟩
      · exact List.any_eq_true.mpr ⟨'"', hm, by decide⟩
    refine ⟨?_, unescape_escape s.data⟩
    rw [csvField, if_pos hq]

theorem c5_witness :
    (csvField ("Pepper, black")).data
      = '"' :: (escapeQuotes ("Pepper, black").data ++ ['"']) ∧
    unescapeQuotes (escapeQuotes ("Pepper, black").data) = ("Pepper, black").data :=
  (c5_csv_renderer [] ("Pepper, black")).2 (Or.inl (by decide))

/-! ## Export dispatch -/

/-- C4 (amended): for every requested format string whose lowercasing is
not one of the identifiers txt, csv, pdf, the export fails with the
bad-request response carrying HTTP 400, never a server fault. -/
theorem c4_unsupported_format (lines : List RecipeIngredient) (carts : List CartEntry)
    (u : Nat) (s : String) (h1 : strLower s ≠ ("txt")) (h2 : strLower s ≠ ("csv"))
    (h3 : strLower s ≠ ("pdf")) :
    export_shopping_cart lines carts u (some s)
      = ExportResult.badRequest ("Неподдерживаемый формат файла") ∧
    statusCode (export_shopping_cart lines carts u (some s)) = 400 := by
  have he : export_shopping_cart lines carts u (some s)
      = ExportResult.badRequest ("Неподдерживаемый формат файла") := by
    unfold export_shopping_cart
    simp only [Option.getD_some]
    rw [if_neg h1, if_neg h2, if_neg h3]
  refine ⟨he, ?_⟩
  rw [he]
  rfl

theorem c4_witness :
    export_shopping_cart [] [] 0 (some ("xml"))
      = ExportResult.badRequest ("Неподдерживаемый формат файла") ∧
    statusCode (export_shopping_cart [] [] 0 (some ("xml"))) = 400 :=
  c4_unsupported_format [] [] 0 ("xml") (by decide) (by decide) (by decide)

/-- C4 counterexample: the format string TXT differs from each of the
three exact identifiers txt, csv, pdf, yet the export does not answer
400 — it answers 200 (the lowercased dispatch accepts it). -/
theorem c4_counterexample :
    (("TXT") ≠ ("txt") ∧ ("TXT") ≠ ("csv") ∧ ("TXT") ≠ ("pdf")) ∧
    statusCode (export_shopping_cart [] [] 0 (some ("TXT"))) = 200 ∧
    statusCode (export_shopping_cart [] [] 0 (some ("TXT"))) ≠ 400 := by
  decide

/-- C8: a missing format parameter is treated as txt (the plain-text
export is returned, not an error), and matching is case-insensitive:
every string lowering to txt, csv or pdf selects the corresponding
renderer. -/
theorem c8_format_default_case_insensitive (lines : List RecipeIngredient)
    (carts : List CartEntry) (u : Nat) :
    export_shopping_cart lines carts u none
      = ExportResult.txtFile (generate_text_content (aggregate lines carts u)) ∧
    (∀ s : String, strLower s = ("txt") → export_shopping_cart lines carts u (some s)
      = ExportResult.txtFile (generate_text_content (aggregate lines carts u))) ∧
    (∀ s : String, strLower s = ("csv") → export_shopping_cart lines carts u (some s)
      = ExportResult.csvFile (generate_csv_content (aggregate lines carts u))) ∧
    (∀ s : String, strLower s = ("pdf") → export_shopping_cart lines carts u (some s)
      = ExportResult.pdfFile (generate_pdf_cells (aggregate lines carts u))) := by
  refine ⟨?_, ?_, ?_, ?_⟩
  · unfold export_shopping_cart
    simp only [Option.getD_none]
    rw [if_pos (by decide)]
  · intro s hs
    unfold export_shopping_cart
    simp only [Option.getD_some, hs]
    rfl
  · intro s hs
    unfold export_shopping_cart
    simp only [Option.getD_some, hs]
    rfl
  · intro s hs
    unfold export_shopping_cart
    simp only [Option.getD_some, hs]
    rfl

theorem c8_witness :
    export_shopping_cart [] [] 0 (some ("TXT"))
      = ExportResult.txtFile (generate_text_content (aggregate [] [] 0)) ∧
    export_shopping_cart [] [] 0 (some ("cSv"))
      = ExportResult.csvFile (generate_csv_content (aggregate [] [] 0)) ∧
    export_shopping_cart [] [] 0 (some ("Pdf"))
      = ExportResult.pdfFile (generate_pdf_cells (aggregate [] [] 0)) :=
  ⟨(c8_format_default_case_insensitive [] [] 0).2.1 ("TXT") (by decide),
    (c8_format_default_case_insensitive [] [] 0).2.2.1 ("cSv") (by decide),
    (c8_format_default_case_insensitive [] [] 0).2.2.2 ("Pdf") (by decide)⟩

/-! ## Follow deletion -/

/-- C9: deleting a subscription when no follow relation exists answers
400 and leaves the follow table unchanged; when the relation exists,
exactly that one row is removed (its multiplicity drops by one, every
other pair's multiplicity is unchanged) and 204 is returned. -/
theorem c9_follow_delete (users : List Nat) (follows : List (Nat × Nat)) (u t : Nat)
    (hu : t ∈ users) :
    ((u, t) ∉ follows → manage_follow_delete users follows u t = (400, follows)) ∧
    ((u, t) ∈ follows →
      (manage_follow_delete users follows u t).1 = 204 ∧
      (manage_follow_delete users follows u t).2 = follows.erase (u, t) ∧
      List.count (u, t) (manage_follow_delete users follows u t).2
        = List.count (u, t) follows - 1 ∧
      (∀ p : Nat × Nat, p ≠ (u, t) →
        List.count p (manage_follow_delete users follows u t).2
          = List.count p follows)) := by
  constructor
  · intro hnot
    unfold manage_follow_delete
    rw [if_pos hu, if_neg hnot]
  · intro hmem
    have he : manage_follow_delete users follows u t = (204, follows.erase (u, t)) := by
      unfold manage_follow_delete
      rw [if_pos hu, if_pos hmem]
    refine ⟨by rw [he], by rw [he], ?_, ?_⟩
    · rw [he]
      exact List.count_erase_self _ _
    · intro p hp
      rw [he]
      exact List.count_erase_of_ne hp _

theorem c9_witness :
    (manage_follow_delete [1, 2, 3] [(1, 2), (3, 2)] 1 2).1 = 204 ∧
    (manage_follow_delete [1, 2, 3] [(1, 2), (3, 2)] 1 2).2
      = ([(1, 2), (3, 2)] : List (Nat × Nat)).erase (1, 2) :=
  ⟨((c9_follow_delete [1, 2, 3] [(1, 2), (3, 2)] 1 2 (by decide)).2 (by decide)).1,
    ((c9_follow_delete [1, 2, 3] [(1, 2), (3, 2)] 1 2 (by decide)).2 (by decide)).2.1⟩

/-! ## Ingredient name filter -/

/-- C10: with a non-empty name parameter every returned ingredient name
starts with the parameter under case-insensitive comparison; a missing
or empty parameter returns the full list unfiltered. -/
theorem c10_ingredient_filter (ingredients : List String) (n : String) :
    ingredient_get_queryset ingredients none = ingredients ∧
    ingredient_get_queryset ingredients (some ("")) = ingredients ∧
    (n ≠ ("") → ∀ x ∈ ingredient_get_queryset ingredients (some n),
      (strLower n).data.isPrefixOf (strLower x).data = true) := by
  refine ⟨rfl, rfl, ?_⟩
  intro hn x hx
  have hne : n.isEmpty = false := by
    rw [Bool.eq_false_iff]
    intro hemp
    exact hn ((String.isEmpty_iff n).mp hemp)
  simp only [ingredient_get_queryset, hne, Bool.false_eq_true, if_false] at hx
  exact (List.mem_filter.mp hx).2

theorem c10_witness :
    (strLower ("Sa")).data.isPrefixOf (strLower ("Salt")).data = true :=
  (c10_ingredient_filter [("Salt"), ("Sugar")] ("Sa")).2.2 (by decide) ("Salt")
    (by decide)

end FoodgramSpec
